import Mathlib

/-!
Verification of the accidental-secret-leak risk rule and the shared
trust-boundary topology helpers (package `builtin`), embedded shallowly.
Pure Go functions become Lean functions; map lookups with an `ok` flag
become `Option`; the enumerated ordinal types of the external `types`
package are modelled from the specification (they are not part of the
provided sources), with their total orders given by numeric weights,
exactly as the comparison operators on the Go enumerations behave.
-/

/-- Modelled from the spec: confidentiality levels, a totally ordered
enumeration `Public < Internal < Restricted < Confidential <
StrictlyConfidential` (types.Confidentiality is outside the provided
sources). -/
inductive Confidentiality
  | Public
  | Internal
  | Restricted
  | Confidential
  | StrictlyConfidential
deriving DecidableEq, Fintype

/-- Numeric weight giving the total order on confidentiality levels. -/
def Confidentiality.weight : Confidentiality → Nat
  | .Public => 0
  | .Internal => 1
  | .Restricted => 2
  | .Confidential => 3
  | .StrictlyConfidential => 4

instance : LE Confidentiality := ⟨fun a b => a.weight ≤ b.weight⟩

instance (a b : Confidentiality) : Decidable (a ≤ b) :=
  inferInstanceAs (Decidable (a.weight ≤ b.weight))

/-- Modelled from the spec: criticality levels for integrity and
availability, a totally ordered enumeration with `Critical` and the
maximum `MissionCritical` at the top (types.Criticality is outside the
provided sources). -/
inductive Criticality
  | Archive
  | Operational
  | Important
  | Critical
  | MissionCritical
deriving DecidableEq, Fintype

/-- Numeric weight giving the total order on criticality levels. -/
def Criticality.weight : Criticality → Nat
  | .Archive => 0
  | .Operational => 1
  | .Important => 2
  | .Critical => 3
  | .MissionCritical => 4

instance : LE Criticality := ⟨fun a b => a.weight ≤ b.weight⟩

instance (a b : Criticality) : Decidable (a ≤ b) :=
  inferInstanceAs (Decidable (a.weight ≤ b.weight))

/-- Modelled from the spec: the three-tier exploitation-impact rating
(types.RiskExploitationImpact is outside the provided sources). -/
inductive RiskExploitationImpact
  | LowImpact
  | MediumImpact
  | HighImpact
deriving DecidableEq, Fintype

/-- Numeric weight giving the total order Low ≤ Medium ≤ High on impacts. -/
def RiskExploitationImpact.weight : RiskExploitationImpact → Nat
  | .LowImpact => 1
  | .MediumImpact => 2
  | .HighImpact => 3

instance : LE RiskExploitationImpact := ⟨fun a b => a.weight ≤ b.weight⟩

instance (a b : RiskExploitationImpact) : Decidable (a ≤ b) :=
  inferInstanceAs (Decidable (a.weight ≤ b.weight))

/-- Modelled from the spec: exploitation-likelihood ratings; the rule under
study only ever supplies `Unlikely` (types.RiskExploitationLikelihood is
outside the provided sources). -/
inductive RiskExploitationLikelihood
  | Unlikely
  | Likely
  | VeryLikely
  | Frequent
deriving DecidableEq, Fintype

/-- Numeric weight giving the total order on likelihoods. -/
def RiskExploitationLikelihood.weight : RiskExploitationLikelihood → Nat
  | .Unlikely => 1
  | .Likely => 2
  | .VeryLikely => 3
  | .Frequent => 4

/-- Modelled from the spec: the overall severity ratings produced by the
shared impact-by-likelihood lookup (types.RiskSeverity is outside the
provided sources). -/
inductive RiskSeverity
  | LowSeverity
  | MediumSeverity
  | ElevatedSeverity
  | HighSeverity
  | CriticalSeverity
deriving DecidableEq, Fintype

/-- Modelled from the spec: the shared severity lookup table
(types.CalculateSeverity is outside the provided sources).  The spec fixes
only its shape: a deterministic table over likelihood and impact, monotonic
in both inputs; realised here as weight-product thresholds. -/
def CalculateSeverity (likelihood : RiskExploitationLikelihood)
    (impact : RiskExploitationImpact) : RiskSeverity :=
  let w := likelihood.weight * impact.weight
  if w ≤ 1 then .LowSeverity
  else if w ≤ 3 then .MediumSeverity
  else if w ≤ 8 then .ElevatedSeverity
  else .HighSeverity

/-- Modelled from the spec: data-breach probability ratings
(types.DataBreachProbability is outside the provided sources). -/
inductive DataBreachProbability
  | Improbable
  | Possible
  | Probable
deriving DecidableEq, Fintype

/-- Modelled from the spec: a technology tag carrying named boolean
attributes (types.Technology is outside the provided sources). -/
structure Technology where
  Name : String
  Attributes : List String
deriving DecidableEq

/-- Modelled from the spec: the attribute name types.MayContainSecrets. -/
def MayContainSecrets : String := "may_contain_secrets"

/-- Modelled from the spec: the attribute name types.SourcecodeRepository. -/
def SourcecodeRepository : String := "sourcecode_repository"

/-- Modelled from the spec: the attribute name types.ArtifactRegistry. -/
def ArtifactRegistry : String := "artifact_registry"

/-- Modelled from the spec: types.TechnologyList.GetAttribute — true when
some technology of the asset carries the queried boolean attribute
(outside the provided sources). -/
def GetAttribute (techs : List Technology) (attr : String) : Bool :=
  techs.any (fun t => t.Attributes.contains attr)

/-- Technical asset node of the model graph (types.TechnicalAsset; only the
fields the rule reads are embedded). -/
structure TechnicalAsset where
  Id : String
  Title : String
  OutOfScope : Bool
  Technologies : List Technology
  Tags : List String
deriving DecidableEq

/-- Modelled from the spec: types.TechnicalAsset.IsTaggedWithAny — tag-set
membership of any of the queried tags (outside the provided sources). -/
def IsTaggedWithAny (ta : TechnicalAsset) (tags : List String) : Bool :=
  tags.any (fun tag => ta.Tags.contains tag)

/-- Modelled from the spec: trust-boundary kinds, distinguishing network
boundaries from non-network kinds such as execution environments
(types.TrustBoundaryType is outside the provided sources). -/
inductive TrustBoundaryType
  | NetworkBoundaryKind
  | ExecutionEnvironment
  | OtherNonNetworkKind
deriving DecidableEq, Fintype

/-- Modelled from the spec: types.TrustBoundaryType.IsNetworkBoundary —
whether the kind is a network-level isolation perimeter (outside the
provided sources). -/
def TrustBoundaryType.IsNetworkBoundary : TrustBoundaryType → Bool
  | .NetworkBoundaryKind => true
  | _ => false

/-- Trust boundary (types.TrustBoundary; `type` embeds the Go field `Type`,
which is a reserved word in Lean). -/
structure TrustBoundary where
  Id : String
  type : TrustBoundaryType
deriving DecidableEq

/-- Directed communication link between two technical assets
(types.CommunicationLink; only the endpoint references are embedded). -/
structure CommunicationLink where
  SourceId : String
  TargetId : String
deriving DecidableEq

/-- Static risk-category metadata (types.RiskCategory; the narrative string
fields of `Category()` not read by any operation are omitted). -/
structure RiskCategory where
  ID : String
  Title : String
deriving DecidableEq

/-- Risk finding (types.Risk; the fields set by `createRisk`). -/
structure Risk where
  CategoryId : String
  Severity : RiskSeverity
  ExploitationLikelihood : RiskExploitationLikelihood
  ExploitationImpact : RiskExploitationImpact
  Title : String
  MostRelevantTechnicalAssetId : String
  DataBreachProbability : DataBreachProbability
  DataBreachTechnicalAssetIDs : List String
  SyntheticId : String
deriving DecidableEq

/-- The model graph as the rule consumes it (types.Model).  `assets` holds
the technical assets in the deterministic order of
`SortedTechnicalAssetIDs()`, each already resolved through the
`TechnicalAssets` map; the remaining read-only queries of the Model
collaborator become function fields. -/
structure Model where
  assets : List TechnicalAsset
  DirectContainingTrustBoundaryMappedByTechnicalAssetId : String → Option TrustBoundary
  FindParentTrustBoundary : TrustBoundary → Option TrustBoundary
  HighestProcessedConfidentiality : String → Confidentiality
  HighestProcessedIntegrity : String → Criticality
  HighestProcessedAvailability : String → Criticality

/-- ASCII lower-casing of a single character, the folding step of
strings.EqualFold on ASCII data. -/
def asciiLower (c : Char) : Char :=
  if 65 ≤ c.toNat ∧ c.toNat ≤ 90 then Char.ofNat (c.toNat + 32) else c

/-- Modelled from the spec: strings.EqualFold — case-insensitive string
equality (ASCII folding; the Go standard library is outside the provided
sources). -/
def EqualFold (a b : String) : Bool :=
  a.data.map asciiLower == b.data.map asciiLower

/-- Category()  — static metadata of the accidental-secret-leak rule. -/
def Category : RiskCategory :=
  { ID := "accidental-secret-leak"
    Title := "Accidental Secret Leak" }

/-- SupportedTags() of the rule. -/
def SupportedTags : List String := ["git", "nexus"]

/-- skipAsset — the applicability filter: skip out-of-scope assets and
assets whose technologies lack the may-contain-secrets attribute. -/
def skipAsset (techAsset : TechnicalAsset) : Bool :=
  techAsset.OutOfScope || !(GetAttribute techAsset.Technologies MayContainSecrets)

/-- Impact computation of createRisk (lines 78-91 of the rule): start at
Low, raise to Medium on the threshold conditions, then overwrite with High
on the maximum conditions. -/
def impactOf (highestProcessedConfidentiality : Confidentiality)
    (highestProcessedIntegrity highestProcessedAvailability : Criticality) :
    RiskExploitationImpact :=
  let impact : RiskExploitationImpact := .LowImpact
  let impact :=
    if highestProcessedConfidentiality ≥ .Confidential ||
        highestProcessedIntegrity ≥ .Critical ||
        highestProcessedAvailability ≥ .Critical then .MediumImpact else impact
  let impact :=
    if highestProcessedConfidentiality = .StrictlyConfidential ||
        highestProcessedIntegrity = .MissionCritical ||
        highestProcessedAvailability = .MissionCritical then .HighImpact else impact
  impact

/-- createRisk — builds the finding for one applicable technical asset
(`pfx` embeds the Go parameter `prefix`, a reserved word in Lean). -/
def createRisk (parsedModel : Model) (technicalAsset : TechnicalAsset)
    (pfx details : String) : Risk :=
  let pfx := if pfx.length > 0 then " (" ++ pfx ++ ")" else pfx
  let title := "<b>Accidental Secret Leak" ++ pfx ++ "</b> risk at <b>" ++
    technicalAsset.Title ++ "</b>"
  let title := if details.length > 0 then title ++ ": <u>" ++ details ++ "</u>" else title
  let impact := impactOf
    (parsedModel.HighestProcessedConfidentiality technicalAsset.Id)
    (parsedModel.HighestProcessedIntegrity technicalAsset.Id)
    (parsedModel.HighestProcessedAvailability technicalAsset.Id)
  { CategoryId := Category.ID
    Severity := CalculateSeverity .Unlikely impact
    ExploitationLikelihood := .Unlikely
    ExploitationImpact := impact
    Title := title
    MostRelevantTechnicalAssetId := technicalAsset.Id
    DataBreachProbability := .Probable
    DataBreachTechnicalAssetIDs := [technicalAsset.Id]
    SyntheticId := Category.ID ++ "@" ++ technicalAsset.Id }

/-- Loop body of GenerateRisks: the risk created for one non-skipped asset,
with the Git-specific title parts when the asset is tagged git. -/
def riskForAsset (parsedModel : Model) (techAsset : TechnicalAsset) : Risk :=
  if IsTaggedWithAny techAsset ["git"] then
    createRisk parsedModel techAsset "Git" "Git Leak Prevention"
  else
    createRisk parsedModel techAsset "" ""

/-- Loop of GenerateRisks over the sorted technical assets. -/
def generateRisksList (parsedModel : Model) : List TechnicalAsset → List Risk
  | [] => []
  | techAsset :: rest =>
    if skipAsset techAsset then generateRisksList parsedModel rest
    else riskForAsset parsedModel techAsset :: generateRisksList parsedModel rest

/-- GenerateRisks — iterates the sorted technical assets, skipping
inapplicable ones, and returns the collected risks with a nil error. -/
def GenerateRisks (parsedModel : Model) : List Risk × Option String :=
  (generateRisksList parsedModel parsedModel.assets, none)

/-- MatchRisk — whether the identifier names a risk this rule could
produce for the model (case-insensitive; also accepts the wildcard). -/
def MatchRisk (parsedModel : Model) (risk : String) : Bool :=
  parsedModel.assets.any (fun techAsset =>
    EqualFold risk (Category.ID ++ "@" ++ techAsset.Id) ||
    EqualFold risk (Category.ID ++ "@*"))

/-- One line of the explanation output of `ExplainRisk`/`explainRisk`.
Each constructor stands for one Sprintf template of the Go code, carrying
the formatted arguments; the literal text rendering (which relies on the
String() methods of the external `types` package) is abstracted. -/
inductive ExplainLine
  | empty
  | assetHeader (id : String)
  | outOfScopeLine (v : Bool)
  | technologyLine (techs : List Technology)
  | taggedGitLine
  | impactBecause (impact : RiskExploitationImpact)
  | confidentialityEqReason (c threshold : Confidentiality)
  | integrityEqReason (i threshold : Criticality)
  | availabilityEqReason (a threshold : Criticality)
  | confidentialityGeReason (c threshold : Confidentiality)
  | integrityMedReason (i threshold : Criticality)
  | availabilityMedReason (a threshold : Criticality)
  | impactDefault (impact : RiskExploitationImpact)
deriving DecidableEq

/-- Body of the lower-case explainRisk helper as a function of the three
aggregate sensitivity levels of the asset (the Go code queries them from
the model repeatedly; they are constant throughout the call). -/
def explainRiskAux (c : Confidentiality) (i a : Criticality) : List ExplainLine :=
  if c = .StrictlyConfidential ∨ i = .MissionCritical ∨ a = .MissionCritical then
    let impact := RiskExploitationImpact.HighImpact
    let expl := [ExplainLine.impactBecause impact]
    let expl := if c = .StrictlyConfidential then
      expl ++ [ExplainLine.confidentialityEqReason c .StrictlyConfidential] else expl
    let expl := if i = .MissionCritical then
      expl ++ [ExplainLine.integrityEqReason i .MissionCritical] else expl
    let expl := if a = .MissionCritical then
      expl ++ [ExplainLine.availabilityEqReason a .MissionCritical] else expl
    expl
  else if c ≥ .Confidential ∨ i ≥ .Critical ∨ a ≥ .Critical then
    let impact := RiskExploitationImpact.MediumImpact
    let expl := [ExplainLine.impactBecause impact]
    let expl := if c = .StrictlyConfidential then
      expl ++ [ExplainLine.confidentialityGeReason c .Confidential] else expl
    let expl := if i = .MissionCritical then
      expl ++ [ExplainLine.integrityMedReason i .Critical] else expl
    let expl := if a = .MissionCritical then
      expl ++ [ExplainLine.availabilityMedReason a .Critical] else expl
    expl
  else
    [ExplainLine.impactDefault .LowImpact]

/-- explainRisk (lower-case) — re-derives the impact reasoning lines for
one technical asset. -/
def explainRisk (parsedModel : Model) (technicalAsset : TechnicalAsset) : List ExplainLine :=
  explainRiskAux
    (parsedModel.HighestProcessedConfidentiality technicalAsset.Id)
    (parsedModel.HighestProcessedIntegrity technicalAsset.Id)
    (parsedModel.HighestProcessedAvailability technicalAsset.Id)

/-- Loop of ExplainRisk over the sorted technical assets, threading the
accumulated explanation (the Go code tests its length for the blank
separator, so the accumulator is explicit). -/
def explainRiskLoop (parsedModel : Model) (risk : String) :
    List TechnicalAsset → List ExplainLine → List ExplainLine
  | [], explanation => explanation
  | techAsset :: rest, explanation =>
    let explanation :=
      if EqualFold risk (Category.ID ++ "@" ++ techAsset.Id) ||
          EqualFold risk (Category.ID ++ "@*") then
        if !techAsset.OutOfScope &&
            (GetAttribute techAsset.Technologies SourcecodeRepository ||
              GetAttribute techAsset.Technologies ArtifactRegistry) then
          let riskExplanation := explainRisk parsedModel techAsset
          -- the Go code guards on riskExplanation != nil; explainRisk always
          -- returns a slice built by make/append, which is never nil
          let explanation := if explanation.length > 0 then
            explanation ++ [ExplainLine.empty] else explanation
          let explanation := explanation ++
            [ExplainLine.assetHeader techAsset.Id,
              ExplainLine.outOfScopeLine techAsset.OutOfScope,
              ExplainLine.technologyLine techAsset.Technologies]
          let explanation := if IsTaggedWithAny techAsset ["git"] then
            explanation ++ [ExplainLine.taggedGitLine] else explanation
          explanation ++ riskExplanation
        else explanation
      else explanation
    explainRiskLoop parsedModel risk rest explanation

/-- ExplainRisk — the human-readable reasoning chain for a matching risk
identifier. -/
def ExplainRisk (parsedModel : Model) (risk : String) : List ExplainLine :=
  explainRiskLoop parsedModel risk parsedModel.assets []

/-- An explanation reports a given impact tier when one of its lines is the
impact line carrying that tier. -/
def reportsImpact (explanation : List ExplainLine) (impact : RiskExploitationImpact) : Prop :=
  ExplainLine.impactBecause impact ∈ explanation ∨
    ExplainLine.impactDefault impact ∈ explanation

instance (explanation : List ExplainLine) (impact : RiskExploitationImpact) :
    Decidable (reportsImpact explanation impact) :=
  inferInstanceAs (Decidable (_ ∨ _))

/-- isNetworkOnly — whether a (looked-up) boundary is a network-only
context: present and network-typed, or present, non-network-typed and
without a parent boundary.  The Go `ok` flag of the map lookup becomes the
`Option`. -/
def isNetworkOnly (parsedModel : Model) (trustBoundary : Option TrustBoundary) : Bool :=
  match trustBoundary with
  | none => false
  | some tb =>
    if !tb.type.IsNetworkBoundary then
      match parsedModel.FindParentTrustBoundary tb with
      | some _ => false
      | none => true
    else true

/-- isAcrossNetworkTrustBoundary — directional: distinct boundary identities
with the target boundary network-typed. -/
def isAcrossNetworkTrustBoundary
    (trustBoundaryOfSourceAsset trustBoundaryOfTargetAsset : TrustBoundary) : Bool :=
  trustBoundaryOfSourceAsset.Id != trustBoundaryOfTargetAsset.Id &&
    trustBoundaryOfTargetAsset.type.IsNetworkBoundary

/-- isAcrossTrustBoundaryNetworkOnly — both endpoints sit in network-only
contexts and the link crosses into a network boundary. -/
def isAcrossTrustBoundaryNetworkOnly (parsedModel : Model)
    (communicationLink : CommunicationLink) : Bool :=
  let trustBoundaryOfSourceAsset :=
    parsedModel.DirectContainingTrustBoundaryMappedByTechnicalAssetId communicationLink.SourceId
  if !isNetworkOnly parsedModel trustBoundaryOfSourceAsset then false
  else
    let trustBoundaryOfTargetAsset :=
      parsedModel.DirectContainingTrustBoundaryMappedByTechnicalAssetId communicationLink.TargetId
    if !isNetworkOnly parsedModel trustBoundaryOfTargetAsset then false
    else
      match trustBoundaryOfSourceAsset, trustBoundaryOfTargetAsset with
      | some sa, some tb => isAcrossNetworkTrustBoundary sa tb
      | _, _ => false

/-- isSameExecutionEnvironment — equal execution-environment boundaries,
with the boundary-less/boundary-less state counting as equal. -/
def isSameExecutionEnvironment (parsedModel : Model) (ta : TechnicalAsset)
    (otherAssetId : String) : Bool :=
  match parsedModel.DirectContainingTrustBoundaryMappedByTechnicalAssetId ta.Id,
      parsedModel.DirectContainingTrustBoundaryMappedByTechnicalAssetId otherAssetId with
  | none, none => true
  | some trustBoundaryOfMyAsset, some trustBoundaryOfOtherAsset =>
    if trustBoundaryOfMyAsset.type = .ExecutionEnvironment ∧
        trustBoundaryOfOtherAsset.type = .ExecutionEnvironment then
      trustBoundaryOfMyAsset.Id == trustBoundaryOfOtherAsset.Id
    else false
  | _, _ => false

/-- One-step network normalization of isSameTrustBoundaryNetworkOnly: a
present non-network boundary is replaced by its parent (which may be
absent); the Go code updates the `ok` flag to the nil-ness of the result,
which the `Option` carries directly. -/
def normalizeToNetworkBoundary (parsedModel : Model)
    (trustBoundary : Option TrustBoundary) : Option TrustBoundary :=
  match trustBoundary with
  | some tb =>
    if !tb.type.IsNetworkBoundary then parsedModel.FindParentTrustBoundary tb
    else some tb
  | none => none

/-- isSameTrustBoundaryNetworkOnly — identity comparison of the one-step
network-normalized boundaries, treating both-absent as equal and
one-absent as unequal. -/
def isSameTrustBoundaryNetworkOnly (parsedModel : Model) (ta : TechnicalAsset)
    (otherAssetId : String) : Bool :=
  let trustBoundaryOfMyAsset := normalizeToNetworkBoundary parsedModel
    (parsedModel.DirectContainingTrustBoundaryMappedByTechnicalAssetId ta.Id)
  let trustBoundaryOfOtherAsset := normalizeToNetworkBoundary parsedModel
    (parsedModel.DirectContainingTrustBoundaryMappedByTechnicalAssetId otherAssetId)
  match trustBoundaryOfMyAsset, trustBoundaryOfOtherAsset with
  | none, none => true
  | some mine, some other => mine.Id == other.Id
  | _, _ => false

/-- Network-only context of a single boundary, in the words of the spec:
network-typed, or non-network-typed without any parent boundary. -/
def networkOnlyContext (parsedModel : Model) (tb : TrustBoundary) : Prop :=
  tb.type.IsNetworkBoundary = true ∨
    (tb.type.IsNetworkBoundary = false ∧ parsedModel.FindParentTrustBoundary tb = none)

/-- The impact tier in the words of the spec: High on any of the maxima,
otherwise Medium on any of the thresholds, otherwise Low. -/
def specImpactTier (c : Confidentiality) (i a : Criticality) : RiskExploitationImpact :=
  if c = .StrictlyConfidential ∨ i = .MissionCritical ∨ a = .MissionCritical then .HighImpact
  else if c ≥ .Confidential ∨ i ≥ .Critical ∨ a ≥ .Critical then .MediumImpact
  else .LowImpact

/-- A technical asset's title occurs around a given substring: the title
decomposes as some prefix, the substring, and some suffix. -/
def containsSubstring (s sub : String) : Prop :=
  ∃ l r : List Char, s.data = l ++ sub.data ++ r

/-- Concrete fixture: a sourcecode-repository technology that may contain
secrets. -/
def techGit : Technology := ⟨"git", [MayContainSecrets, SourcecodeRepository]⟩

/-- Concrete fixture: a technology that may contain secrets but is neither
a sourcecode repository nor an artifact registry. -/
def techSecretOnly : Technology := ⟨"custom-secret-store", [MayContainSecrets]⟩

/-- Concrete fixture: an in-scope asset carrying only the
may-contain-secrets attribute. -/
def assetSecretOnly : TechnicalAsset := ⟨"a", "Custom Store", false, [techSecretOnly], []⟩

/-- Concrete fixture: an in-scope git-tagged sourcecode repository. -/
def assetGit : TechnicalAsset := ⟨"x", "Code Repo", false, [techGit], ["git"]⟩

/-- Concrete fixture: an out-of-scope asset. -/
def assetOutOfScope : TechnicalAsset := ⟨"y", "Legacy", true, [techGit], []⟩

/-- Concrete fixture: a model holding only `assetSecretOnly`. -/
def modelSecretOnly : Model :=
  ⟨[assetSecretOnly], fun _ => none, fun _ => none,
    fun _ => .Public, fun _ => .Archive, fun _ => .Archive⟩

/-- Concrete fixture: a model holding the git asset (strictly confidential
data) and the out-of-scope asset. -/
def modelGitMix : Model :=
  ⟨[assetGit, assetOutOfScope], fun _ => none, fun _ => none,
    fun _ => .StrictlyConfidential, fun _ => .Archive, fun _ => .Archive⟩

/-- Concrete fixture: a model holding only the out-of-scope asset. -/
def modelOutOnly : Model :=
  ⟨[assetOutOfScope], fun _ => none, fun _ => none,
    fun _ => .Public, fun _ => .Archive, fun _ => .Archive⟩

/-- Concrete fixture: a network trust boundary. -/
def tbNet1 : TrustBoundary := ⟨"net1", .NetworkBoundaryKind⟩

/-- Concrete fixture: an execution-environment trust boundary. -/
def tbExec1 : TrustBoundary := ⟨"exec1", .ExecutionEnvironment⟩


lemma EqualFold_refl (s : String) : EqualFold s s = true := by
  simp [EqualFold]

lemma confidentialityLeRefl (a : Confidentiality) : a ≤ a :=
  show a.weight ≤ a.weight from Nat.le_refl _

lemma criticalityLeRefl (a : Criticality) : a ≤ a :=
  show a.weight ≤ a.weight from Nat.le_refl _

lemma impactOf_eq_specImpactTier : ∀ c i a, impactOf c i a = specImpactTier c i a := by
  decide

lemma impactOf_strict : ∀ i a, impactOf .StrictlyConfidential i a = .HighImpact := by
  decide

lemma impactOf_mono : ∀ c c' i i' a a', c ≤ c' → i ≤ i' → a ≤ a' →
    impactOf c i a ≤ impactOf c' i' a' := by
  decide

lemma createRisk_impact (m : Model) (ta : TechnicalAsset) (pfx details : String) :
    (createRisk m ta pfx details).ExploitationImpact =
      impactOf (m.HighestProcessedConfidentiality ta.Id)
        (m.HighestProcessedIntegrity ta.Id)
        (m.HighestProcessedAvailability ta.Id) := rfl

lemma riskForAsset_mostRelevant (m : Model) (ta : TechnicalAsset) :
    (riskForAsset m ta).MostRelevantTechnicalAssetId = ta.Id := by
  unfold riskForAsset
  split <;> rfl

lemma riskForAsset_syntheticId (m : Model) (ta : TechnicalAsset) :
    (riskForAsset m ta).SyntheticId = Category.ID ++ "@" ++ ta.Id := by
  unfold riskForAsset
  split <;> rfl

lemma riskForAsset_impact (m : Model) (ta : TechnicalAsset) :
    (riskForAsset m ta).ExploitationImpact =
      impactOf (m.HighestProcessedConfidentiality ta.Id)
        (m.HighestProcessedIntegrity ta.Id)
        (m.HighestProcessedAvailability ta.Id) := by
  unfold riskForAsset
  split <;> rfl

/-- C2: the impact tier computed by createRisk coincides with the spec's
High / Medium / Low escalation ladder over the asset's aggregate
confidentiality, integrity and availability. -/
theorem createRisk_impact_eq_specTier (m : Model) (ta : TechnicalAsset) (pfx details : String) :
    (createRisk m ta pfx details).ExploitationImpact =
      specImpactTier (m.HighestProcessedConfidentiality ta.Id)
        (m.HighestProcessedIntegrity ta.Id)
        (m.HighestProcessedAvailability ta.Id) := by
  rw [createRisk_impact]
  exact impactOf_eq_specImpactTier _ _ _

/-- C7: isAcrossNetworkTrustBoundary holds exactly for distinct boundary
identities with a network-typed target, and is therefore not symmetric
whenever exactly one of two distinct boundaries is network-typed. -/
theorem acrossNetworkTrustBoundary_directional (a b : TrustBoundary) :
    (isAcrossNetworkTrustBoundary a b = true ↔
      (a.Id ≠ b.Id ∧ b.type.IsNetworkBoundary = true))
    ∧ (a.Id ≠ b.Id → a.type.IsNetworkBoundary ≠ b.type.IsNetworkBoundary →
        isAcrossNetworkTrustBoundary a b ≠ isAcrossNetworkTrustBoundary b a) := by
  constructor
  · simp [isAcrossNetworkTrustBoundary, Bool.and_eq_true, bne_iff_ne]
  · intro h1 h2
    have h3 : (a.Id != b.Id) = true := by simp [bne_iff_ne, h1]
    have h4 : (b.Id != a.Id) = true := by simp [bne_iff_ne, Ne.symm h1]
    simp only [isAcrossNetworkTrustBoundary, h3, h4, Bool.true_and]
    exact Ne.symm h2

/-- C7 witness: at two concrete distinct boundaries of which only the
target is network-typed, the predicate differs between the two
orientations. -/
theorem acrossNetworkTrustBoundary_directional_witness :
    isAcrossNetworkTrustBoundary tbExec1 tbNet1 ≠ isAcrossNetworkTrustBoundary tbNet1 tbExec1 :=
  (acrossNetworkTrustBoundary_directional tbExec1 tbNet1).2 (by decide) (by decide)

/-- C10: GenerateRisks always returns a nil error; no model makes the rule
report a failure. -/
theorem generateRisks_error_none (parsedModel : Model) :
    (GenerateRisks parsedModel).2 = none := rfl

/-- C8: raising any one of the three aggregate sensitivity levels of an
asset, holding the other two fixed, never lowers the impact tier computed
by createRisk (Low ≤ Medium ≤ High). -/
theorem createRisk_impact_monotone (m₁ m₂ : Model) (ta : TechnicalAsset) (pfx details : String) :
    ((m₁.HighestProcessedConfidentiality ta.Id ≤ m₂.HighestProcessedConfidentiality ta.Id ∧
      m₁.HighestProcessedIntegrity ta.Id = m₂.HighestProcessedIntegrity ta.Id ∧
      m₁.HighestProcessedAvailability ta.Id = m₂.HighestProcessedAvailability ta.Id) →
        (createRisk m₁ ta pfx details).ExploitationImpact ≤
          (createRisk m₂ ta pfx details).ExploitationImpact)
    ∧ ((m₁.HighestProcessedConfidentiality ta.Id = m₂.HighestProcessedConfidentiality ta.Id ∧
      m₁.HighestProcessedIntegrity ta.Id ≤ m₂.HighestProcessedIntegrity ta.Id ∧
      m₁.HighestProcessedAvailability ta.Id = m₂.HighestProcessedAvailability ta.Id) →
        (createRisk m₁ ta pfx details).ExploitationImpact ≤
          (createRisk m₂ ta pfx details).ExploitationImpact)
    ∧ ((m₁.HighestProcessedConfidentiality ta.Id = m₂.HighestProcessedConfidentiality ta.Id ∧
      m₁.HighestProcessedIntegrity ta.Id = m₂.HighestProcessedIntegrity ta.Id ∧
      m₁.HighestProcessedAvailability ta.Id ≤ m₂.HighestProcessedAvailability ta.Id) →
        (createRisk m₁ ta pfx details).ExploitationImpact ≤
          (createRisk m₂ ta pfx details).ExploitationImpact) := by
  refine ⟨fun ⟨hc, hi, ha⟩ => ?_, fun ⟨hc, hi, ha⟩ => ?_, fun ⟨hc, hi, ha⟩ => ?_⟩ <;>
    rw [createRisk_impact, createRisk_impact]
  · exact impactOf_mono _ _ _ _ _ _ hc (hi ▸ criticalityLeRefl _) (ha ▸ criticalityLeRefl _)
  · exact impactOf_mono _ _ _ _ _ _ (hc ▸ confidentialityLeRefl _) hi (ha ▸ criticalityLeRefl _)
  · exact impactOf_mono _ _ _ _ _ _ (hc ▸ confidentialityLeRefl _) (hi ▸ criticalityLeRefl _) ha

/-- C8 witness: raising only the confidentiality of the concrete asset from
Public to StrictlyConfidential does not lower the impact tier. -/
theorem createRisk_impact_monotone_witness :
    (createRisk modelSecretOnly assetSecretOnly "" "").ExploitationImpact ≤
      (createRisk modelGitMix assetSecretOnly "" "").ExploitationImpact :=
  (createRisk_impact_monotone modelSecretOnly modelGitMix assetSecretOnly "" "").1
    ⟨by decide, by decide, by decide⟩

lemma isNetworkOnly_none (m : Model) : isNetworkOnly m none = false := rfl

lemma isNetworkOnly_some_iff (m : Model) (tb : TrustBoundary) :
    isNetworkOnly m (some tb) = true ↔ networkOnlyContext m tb := by
  unfold isNetworkOnly networkOnlyContext
  cases h : tb.type.IsNetworkBoundary with
  | false =>
    cases hp : m.FindParentTrustBoundary tb with
    | none => simp [h, hp]
    | some p => simp [h, hp]
  | true => simp [h]

/-- C5: isAcrossTrustBoundaryNetworkOnly holds exactly when both endpoints
have a recorded direct boundary forming a network-only context and the two
boundaries differ in identity with the target one network-typed; a missing
boundary on either side refutes it. -/
theorem acrossTrustBoundaryNetworkOnly_iff (m : Model) (communicationLink : CommunicationLink) :
    isAcrossTrustBoundaryNetworkOnly m communicationLink = true ↔
      ∃ sa tb : TrustBoundary,
        m.DirectContainingTrustBoundaryMappedByTechnicalAssetId communicationLink.SourceId = some sa ∧
        m.DirectContainingTrustBoundaryMappedByTechnicalAssetId communicationLink.TargetId = some tb ∧
        networkOnlyContext m sa ∧ networkOnlyContext m tb ∧
        sa.Id ≠ tb.Id ∧ tb.type.IsNetworkBoundary = true := by
  simp only [isAcrossTrustBoundaryNetworkOnly]
  cases hs : m.DirectContainingTrustBoundaryMappedByTechnicalAssetId communicationLink.SourceId with
  | none => simp [isNetworkOnly_none]
  | some sa =>
    cases ht : m.DirectContainingTrustBoundaryMappedByTechnicalAssetId communicationLink.TargetId with
    | none =>
      cases hno : isNetworkOnly m (some sa) with
      | false => simp [hno]
      | true => simp [hno, isNetworkOnly_none]
    | some tb =>
      cases hno : isNetworkOnly m (some sa) with
      | false =>
        simp only [hno, Bool.not_false, if_true, Bool.false_eq_true, false_iff]
        rintro ⟨sa', tb', hsa', htb', hctx, -⟩
        injection hsa' with h
        subst h
        have hx := (isNetworkOnly_some_iff m sa).mpr hctx
        rw [hno] at hx
        exact absurd hx (by simp)
      | true =>
        cases hnt : isNetworkOnly m (some tb) with
        | false =>
          simp only [hno, hnt, Bool.not_true, Bool.not_false, if_true, if_false,
            Bool.false_eq_true, false_iff]
          rintro ⟨sa', tb', hsa', htb', -, hctx, -⟩
          injection htb' with h
          subst h
          have hx := (isNetworkOnly_some_iff m tb).mpr hctx
          rw [hnt] at hx
          exact absurd hx (by simp)
        | true =>
          have hc1 : networkOnlyContext m sa := (isNetworkOnly_some_iff m sa).mp hno
          have hc2 : networkOnlyContext m tb := (isNetworkOnly_some_iff m tb).mp hnt
          simp only [hno, hnt, Bool.not_true, Bool.false_eq_true, if_false]
          constructor
          · intro hx
            simp only [isAcrossNetworkTrustBoundary, Bool.and_eq_true, bne_iff_ne] at hx
            exact ⟨sa, tb, rfl, rfl, hc1, hc2, hx.1, hx.2⟩
          · rintro ⟨sa', tb', hsa', htb', -, -, hne, hnet⟩
            injection hsa' with h1
            injection htb' with h2
            subst h1
            subst h2
            simp only [isAcrossNetworkTrustBoundary, Bool.and_eq_true, bne_iff_ne]
            exact ⟨hne, hnet⟩

/-- C6: two assets with no recorded containing boundary satisfy both
isSameExecutionEnvironment and isSameTrustBoundaryNetworkOnly; when
exactly one side has a boundary (after one-step network normalization for
the latter predicate), each predicate refutes. -/
theorem boundaryless_sameness (m : Model) (ta : TechnicalAsset) (otherAssetId : String) :
    ((m.DirectContainingTrustBoundaryMappedByTechnicalAssetId ta.Id = none ∧
      m.DirectContainingTrustBoundaryMappedByTechnicalAssetId otherAssetId = none) →
        isSameExecutionEnvironment m ta otherAssetId = true ∧
        isSameTrustBoundaryNetworkOnly m ta otherAssetId = true)
    ∧ ((m.DirectContainingTrustBoundaryMappedByTechnicalAssetId ta.Id).isSome ≠
        (m.DirectContainingTrustBoundaryMappedByTechnicalAssetId otherAssetId).isSome →
          isSameExecutionEnvironment m ta otherAssetId = false)
    ∧ ((normalizeToNetworkBoundary m
          (m.DirectContainingTrustBoundaryMappedByTechnicalAssetId ta.Id)).isSome ≠
        (normalizeToNetworkBoundary m
          (m.DirectContainingTrustBoundaryMappedByTechnicalAssetId otherAssetId)).isSome →
          isSameTrustBoundaryNetworkOnly m ta otherAssetId = false) := by
  refine ⟨?_, ?_, ?_⟩
  · rintro ⟨h1, h2⟩
    refine ⟨?_, ?_⟩
    · simp [isSameExecutionEnvironment, h1, h2]
    · simp [isSameTrustBoundaryNetworkOnly, h1, h2, normalizeToNetworkBoundary]
  · intro h
    simp only [isSameExecutionEnvironment]
    cases h1 : m.DirectContainingTrustBoundaryMappedByTechnicalAssetId ta.Id with
    | none =>
      cases h2 : m.DirectContainingTrustBoundaryMappedByTechnicalAssetId otherAssetId with
      | none => rw [h1, h2] at h; simp at h
      | some other => rfl
    | some mine =>
      cases h2 : m.DirectContainingTrustBoundaryMappedByTechnicalAssetId otherAssetId with
      | none => rfl
      | some other => rw [h1, h2] at h; simp at h
  · intro h
    simp only [isSameTrustBoundaryNetworkOnly]
    cases h1 : normalizeToNetworkBoundary m
        (m.DirectContainingTrustBoundaryMappedByTechnicalAssetId ta.Id) with
    | none =>
      cases h2 : normalizeToNetworkBoundary m
          (m.DirectContainingTrustBoundaryMappedByTechnicalAssetId otherAssetId) with
      | none => rw [h1, h2] at h; simp at h
      | some other => rfl
    | some mine =>
      cases h2 : normalizeToNetworkBoundary m
          (m.DirectContainingTrustBoundaryMappedByTechnicalAssetId otherAssetId) with
      | none => rfl
      | some other => rw [h1, h2] at h; simp at h

/-- C6 witness: in the concrete model neither asset id has a recorded
boundary, and both sameness predicates hold. -/
theorem boundaryless_sameness_witness :
    isSameExecutionEnvironment modelGitMix assetGit "y" = true ∧
    isSameTrustBoundaryNetworkOnly modelGitMix assetGit "y" = true :=
  (boundaryless_sameness modelGitMix assetGit "y").1 ⟨rfl, rfl⟩

/-- C3 counterexample: in the model whose only asset is out of scope, the
wildcard identifier still matches, although no in-scope applicable asset
exists. -/
theorem matchRisk_wildcard_cex :
    MatchRisk modelOutOnly "accidental-secret-leak@*" = true ∧
    ∀ ta ∈ modelOutOnly.assets, skipAsset ta = true := by decide

/-- C3 amended: the wildcard match holds iff the model holds at least one
technical asset — MatchRisk never consults scope or the applicability
filter. -/
theorem matchRisk_wildcard_amended (m : Model) :
    MatchRisk m (Category.ID ++ "@*") = true ↔ m.assets ≠ [] := by
  cases hm : m.assets with
  | nil => simp [MatchRisk, hm]
  | cons tb rest => simp [MatchRisk, hm, EqualFold_refl]

lemma createRisk_severity (m : Model) (ta : TechnicalAsset) (pfx details : String) :
    (createRisk m ta pfx details).Severity =
      CalculateSeverity .Unlikely
        (impactOf (m.HighestProcessedConfidentiality ta.Id)
          (m.HighestProcessedIntegrity ta.Id)
          (m.HighestProcessedAvailability ta.Id)) := rfl

lemma generateRisksList_filter_nomem (m : Model) (targetId : String) :
    ∀ l : List TechnicalAsset, targetId ∉ l.map TechnicalAsset.Id →
      (generateRisksList m l).filter
        (fun x => x.MostRelevantTechnicalAssetId == targetId) = [] := by
  intro l
  induction l with
  | nil => intro _; rfl
  | cons tb rest ih =>
    intro h
    simp only [List.map_cons, List.mem_cons, not_or] at h
    obtain ⟨h1, h2⟩ := h
    simp only [generateRisksList]
    split
    · exact ih h2
    · have hbeq : ((riskForAsset m tb).MostRelevantTechnicalAssetId == targetId) = false := by
        rw [riskForAsset_mostRelevant]
        exact beq_eq_false_iff_ne.mpr (fun hh => h1 hh.symm)
      simp only [List.filter_cons, hbeq, Bool.false_eq_true, if_false]
      exact ih h2

lemma generateRisksList_filter_eq (m : Model) (ta : TechnicalAsset) :
    ∀ l : List TechnicalAsset, (l.map TechnicalAsset.Id).Nodup → ta ∈ l →
      (generateRisksList m l).filter
        (fun x => x.MostRelevantTechnicalAssetId == ta.Id) =
        if skipAsset ta then [] else [riskForAsset m ta] := by
  intro l
  induction l with
  | nil => intro _ hmem; cases hmem
  | cons tb rest ih =>
    intro hnd hmem
    simp only [List.map_cons, List.nodup_cons] at hnd
    obtain ⟨hnotin, hnd2⟩ := hnd
    rcases List.mem_cons.mp hmem with heq | hmem2
    · subst heq
      cases hskip : skipAsset ta with
      | true =>
        simp only [generateRisksList, hskip, if_true]
        exact generateRisksList_filter_nomem m ta.Id rest hnotin
      | false =>
        simp only [generateRisksList, hskip, Bool.false_eq_true, if_false]
        have hbeq : ((riskForAsset m ta).MostRelevantTechnicalAssetId == ta.Id) = true := by
          rw [riskForAsset_mostRelevant]
          exact beq_self_eq_true ta.Id
        simp only [List.filter_cons, hbeq, if_true]
        rw [generateRisksList_filter_nomem m ta.Id rest hnotin]
    · have hne : tb.Id ≠ ta.Id := by
        intro hid
        exact hnotin (hid ▸ List.mem_map_of_mem TechnicalAsset.Id hmem2)
      cases hskip : skipAsset tb with
      | true =>
        simp only [generateRisksList, hskip, if_true]
        exact ih hnd2 hmem2
      | false =>
        simp only [generateRisksList, hskip, Bool.false_eq_true, if_false]
        have hbeq : ((riskForAsset m tb).MostRelevantTechnicalAssetId == ta.Id) = false := by
          rw [riskForAsset_mostRelevant]
          exact beq_eq_false_iff_ne.mpr hne
        simp only [List.filter_cons, hbeq, Bool.false_eq_true, if_false]
        exact ih hnd2 hmem2

/-- C4: when asset ids are distinct (as the Go asset map guarantees),
GenerateRisks yields no risk for a skipped asset — out of scope or without
the may-contain-secrets attribute — and exactly one risk for every other
asset, carrying the categoryId@assetId synthetic identifier. -/
theorem generateRisks_per_asset (m : Model) (ta : TechnicalAsset)
    (hnd : (m.assets.map TechnicalAsset.Id).Nodup) (hmem : ta ∈ m.assets) :
    (skipAsset ta = true →
      ((GenerateRisks m).1.filter
        (fun x => x.MostRelevantTechnicalAssetId == ta.Id)) = [])
    ∧ (skipAsset ta = false →
      ∃ r, ((GenerateRisks m).1.filter
          (fun x => x.MostRelevantTechnicalAssetId == ta.Id)) = [r] ∧
        r.SyntheticId = Category.ID ++ "@" ++ ta.Id) := by
  have hbase := generateRisksList_filter_eq m ta m.assets hnd hmem
  constructor
  · intro hskip
    show (generateRisksList m m.assets).filter _ = []
    rw [hbase, hskip]
    simp
  · intro hskip
    refine ⟨riskForAsset m ta, ?_, riskForAsset_syntheticId m ta⟩
    show (generateRisksList m m.assets).filter _ = _
    rw [hbase, hskip]
    simp

/-- C4 witness: the out-of-scope asset of the concrete two-asset model
receives no risk. -/
theorem generateRisks_per_asset_witness :
    ((GenerateRisks modelGitMix).1.filter
      (fun x => x.MostRelevantTechnicalAssetId == assetOutOfScope.Id)) = [] :=
  (generateRisks_per_asset modelGitMix assetOutOfScope (by decide) (by decide)).1 (by decide)

/-- C9: an in-scope asset tagged git, with the may-contain-secrets
attribute and StrictlyConfidential aggregate confidentiality, receives
exactly one risk: High impact, Unlikely likelihood, the severity of the
shared table at (Unlikely, High), the categoryId@assetId identifier, and a
title containing "(Git)". -/
theorem generateRisks_git_scenario (m : Model) (ta : TechnicalAsset)
    (hnd : (m.assets.map TechnicalAsset.Id).Nodup) (hmem : ta ∈ m.assets)
    (htag : IsTaggedWithAny ta ["git"] = true)
    (hscope : ta.OutOfScope = false)
    (hattr : GetAttribute ta.Technologies MayContainSecrets = true)
    (hconf : m.HighestProcessedConfidentiality ta.Id = .StrictlyConfidential) :
    ∃ r, ((GenerateRisks m).1.filter
        (fun x => x.MostRelevantTechnicalAssetId == ta.Id)) = [r] ∧
      r.ExploitationImpact = .HighImpact ∧
      r.ExploitationLikelihood = .Unlikely ∧
      r.Severity = CalculateSeverity .Unlikely .HighImpact ∧
      r.SyntheticId = Category.ID ++ "@" ++ ta.Id ∧
      containsSubstring r.Title "(Git)" := by
  have hskip : skipAsset ta = false := by
    simp [skipAsset, hscope, hattr]
  have hbase := generateRisksList_filter_eq m ta m.assets hnd hmem
  rw [hskip] at hbase
  simp only [Bool.false_eq_true, if_false] at hbase
  have hr : riskForAsset m ta = createRisk m ta "Git" "Git Leak Prevention" := by
    simp [riskForAsset, htag]
  refine ⟨riskForAsset m ta, hbase, ?_, ?_, ?_, riskForAsset_syntheticId m ta, ?_⟩
  · rw [hr, createRisk_impact, hconf]
    exact impactOf_strict _ _
  · rw [hr]; rfl
  · rw [hr, createRisk_severity, hconf, impactOf_strict]
  · rw [hr]
    have ht : (createRisk m ta "Git" "Git Leak Prevention").Title =
        (((("<b>Accidental Secret Leak (Git)</b> risk at <b>" ++ ta.Title) ++ "</b>") ++
          ": <u>") ++ "Git Leak Prevention") ++ "</u>" := rfl
    refine ⟨("<b>Accidental Secret Leak " : String).data,
      ("</b> risk at <b>" : String).data ++ (ta.Title.data ++
        (("</b>" : String).data ++ ((": <u>" : String).data ++
          (("Git Leak Prevention" : String).data ++ ("</u>" : String).data)))), ?_⟩
    rw [ht]
    simp [String.data_append, List.append_assoc]

/-- C9 witness: the concrete git-tagged strictly confidential asset of the
two-asset model receives its single high-impact risk. -/
theorem generateRisks_git_scenario_witness :
    ∃ r, ((GenerateRisks modelGitMix).1.filter
        (fun x => x.MostRelevantTechnicalAssetId == assetGit.Id)) = [r] ∧
      r.ExploitationImpact = .HighImpact ∧
      r.ExploitationLikelihood = .Unlikely ∧
      r.Severity = CalculateSeverity .Unlikely .HighImpact ∧
      r.SyntheticId = Category.ID ++ "@" ++ assetGit.Id ∧
      containsSubstring r.Title "(Git)" :=
  generateRisks_git_scenario modelGitMix assetGit (by decide) (by decide)
    (by decide) (by decide) (by decide) rfl

lemma riskForAsset_mem (m : Model) (ta : TechnicalAsset) :
    ∀ l : List TechnicalAsset, ta ∈ l → skipAsset ta = false →
      riskForAsset m ta ∈ generateRisksList m l := by
  intro l
  induction l with
  | nil => intro h _; cases h
  | cons tb rest ih =>
    intro hmem hskip
    rcases List.mem_cons.mp hmem with heq | hmem2
    · subst heq
      simp only [generateRisksList, hskip, Bool.false_eq_true, if_false]
      exact List.mem_cons_self _ _
    · simp only [generateRisksList]
      split
      · exact ih hmem2 hskip
      · exact List.mem_cons_of_mem _ (ih hmem2 hskip)

lemma explainRiskLoop_mem_acc (m : Model) (risk : String) :
    ∀ (l : List TechnicalAsset) (acc : List ExplainLine) (x : ExplainLine),
      x ∈ acc → x ∈ explainRiskLoop m risk l acc := by
  intro l
  induction l with
  | nil => intro acc x hx; exact hx
  | cons ta rest ih =>
    intro acc x hx
    simp only [explainRiskLoop]
    apply ih
    split_ifs <;> simp [List.mem_append, hx]

lemma explainRiskLoop_reports (m : Model) (risk : String) :
    ∀ (l : List TechnicalAsset) (acc : List ExplainLine) (ta : TechnicalAsset) (x : ExplainLine),
      ta ∈ l →
      (EqualFold risk (Category.ID ++ "@" ++ ta.Id) ||
        EqualFold risk (Category.ID ++ "@*")) = true →
      (!ta.OutOfScope && (GetAttribute ta.Technologies SourcecodeRepository ||
        GetAttribute ta.Technologies ArtifactRegistry)) = true →
      x ∈ explainRisk m ta →
      x ∈ explainRiskLoop m risk l acc := by
  intro l
  induction l with
  | nil => intro acc ta x hmem; cases hmem
  | cons tb rest ih =>
    intro acc ta x hmem hm he hx
    rcases List.mem_cons.mp hmem with heq | hmem2
    · subst heq
      simp only [explainRiskLoop, hm, he, if_true]
      apply explainRiskLoop_mem_acc
      exact List.mem_append_right _ hx
    · simp only [explainRiskLoop]
      exact ih _ ta x hmem2 hm he hx

lemma explainRiskAux_reports :
    ∀ c i a, reportsImpact (explainRiskAux c i a) (impactOf c i a) := by decide

/-- C1 counterexample: in the model whose only asset carries the
may-contain-secrets attribute but neither the sourcecode-repository nor
the artifact-registry attribute, GenerateRisks produces a risk with
synthetic identifier accidental-secret-leak@a and Low impact, yet
ExplainRisk on that identifier returns the empty explanation and so
reports no impact tier at all. -/
theorem explain_consistency_cex :
    (GenerateRisks modelSecretOnly).1.map Risk.SyntheticId = ["accidental-secret-leak@a"] ∧
    (GenerateRisks modelSecretOnly).1.map Risk.ExploitationImpact =
      [RiskExploitationImpact.LowImpact] ∧
    ExplainRisk modelSecretOnly "accidental-secret-leak@a" = [] ∧
    ¬ reportsImpact (ExplainRisk modelSecretOnly "accidental-secret-leak@a")
        ((createRisk modelSecretOnly assetSecretOnly "" "").ExploitationImpact) := by
  decide

/-- C1 amended: for every risk the rule produces whose asset additionally
carries the sourcecode-repository or artifact-registry technology
attribute (the gate ExplainRisk actually checks), ExplainRisk on the
risk's synthetic identifier reports exactly the impact tier createRisk
computed for that risk. -/
theorem generateRisks_explainRisk_consistency (m : Model) (ta : TechnicalAsset)
    (hmem : ta ∈ m.assets) (hskip : skipAsset ta = false)
    (hgate : (GetAttribute ta.Technologies SourcecodeRepository ||
      GetAttribute ta.Technologies ArtifactRegistry) = true) :
    riskForAsset m ta ∈ (GenerateRisks m).1 ∧
    reportsImpact (ExplainRisk m ((riskForAsset m ta).SyntheticId))
      ((riskForAsset m ta).ExploitationImpact) := by
  have hscope : ta.OutOfScope = false := by
    have h := hskip
    simp only [skipAsset, Bool.or_eq_false_iff] at h
    exact h.1
  constructor
  · show riskForAsset m ta ∈ generateRisksList m m.assets
    exact riskForAsset_mem m ta m.assets hmem hskip
  · rw [riskForAsset_syntheticId, riskForAsset_impact]
    have hm : (EqualFold (Category.ID ++ "@" ++ ta.Id) (Category.ID ++ "@" ++ ta.Id) ||
        EqualFold (Category.ID ++ "@" ++ ta.Id) (Category.ID ++ "@*")) = true := by
      simp [EqualFold_refl]
    have he : (!ta.OutOfScope && (GetAttribute ta.Technologies SourcecodeRepository ||
        GetAttribute ta.Technologies ArtifactRegistry)) = true := by
      simp [hscope, hgate]
    have hrep := explainRiskAux_reports (m.HighestProcessedConfidentiality ta.Id)
      (m.HighestProcessedIntegrity ta.Id) (m.HighestProcessedAvailability ta.Id)
    rcases hrep with hline | hline
    · exact Or.inl (explainRiskLoop_reports m _ m.assets [] ta _ hmem hm he hline)
    · exact Or.inr (explainRiskLoop_reports m _ m.assets [] ta _ hmem hm he hline)

/-- C1 witness: the concrete git repository asset both receives its risk
and has its Low/Medium/High tier reported by ExplainRisk. -/
theorem generateRisks_explainRisk_consistency_witness :
    riskForAsset modelGitMix assetGit ∈ (GenerateRisks modelGitMix).1 ∧
    reportsImpact (ExplainRisk modelGitMix ((riskForAsset modelGitMix assetGit).SyntheticId))
      ((riskForAsset modelGitMix assetGit).ExploitationImpact) :=
  generateRisks_explainRisk_consistency modelGitMix assetGit (by decide) (by decide) (by decide)
